import Mathlib

/-!
Shallow embedding of the `matjamr/malicious-email-detector` repository
(production API variant under `backend/`, the legacy rule-based analyzer
`email_analyzer.py`, and the e2e evaluation harness `e2e/main.py`),
together with theorems settling the specification claims about it.

Python strings are modelled as Lean `String` (both index by code points),
Python floats as an explicit `PyFloat` type (`ℚ` plus the non-finite
values the sanitizers treat specially), Python `int(...)` conversion as
truncation toward zero on `ℚ`, and Python dictionaries as ordered
association lists inside a small JSON-like value type `J`.
-/

/-! ## Python string primitives -/

/-- Substring containment: `sub ∈ s` as lists of characters
(the Python `in` operator on strings). -/
def listInfixOf (sub : List Char) : List Char → Bool
  | [] => sub.isEmpty
  | c :: rest => sub.isPrefixOf (c :: rest) || listInfixOf sub rest

/-- Python `sub in s` for strings. -/
def strIn (sub s : String) : Bool :=
  listInfixOf sub.toList s.toList

/-- Python `s.split(ch)` (no maxsplit): always returns at least one piece. -/
def splitOnChar (ch : Char) : List Char → List (List Char)
  | [] => [[]]
  | c :: rest =>
    if c = ch then [] :: splitOnChar ch rest
    else
      match splitOnChar ch rest with
      | h :: t => (c :: h) :: t
      | [] => [[c]]

/-- Split at the first occurrence of `ch`: `some (before, after)` when `ch`
occurs, `none` otherwise (Python `s.split(ch, 1)` when it yields two parts). -/
def splitFirstChar (ch : Char) : List Char → Option (List Char × List Char)
  | [] => none
  | c :: rest =>
    if c = ch then some ([], rest)
    else (splitFirstChar ch rest).map (fun p => (c :: p.1, p.2))

/-- Python `s.rsplit(' ', 1)[0]`: everything before the last space,
or the whole string when it has no space. -/
def rsplitSpaceHead (s : List Char) : List Char :=
  match splitFirstChar ' ' s.reverse with
  | some (_, after) => after.reverse
  | none => s

/-- Python `s.lower()` (ASCII; every string the claims touch is ASCII). -/
def lowerStr (s : String) : String :=
  String.mk (s.toList.map Char.toLower)

/-- Python `s.strip()` restricted to ASCII whitespace. -/
def pyStrip (s : String) : String :=
  let ws : Char → Bool := fun c => c = ' ' || c = '\t' || c = '\n' || c = '\r'
  String.mk ((s.toList.dropWhile ws).reverse.dropWhile ws).reverse

/-- Python truthiness of an optional string: `None` and `""` are falsy. -/
def optStrFalsy (o : Option String) : Bool :=
  o.getD "" = ""

/-! ## Python numbers -/

/-- A Python float: a finite rational or one of the non-finite values. -/
inductive PyFloat where
  | val (q : ℚ)
  | nan
  | inf
  | ninf
  deriving DecidableEq, Repr

/-- Python `int(q)` on a finite float: truncation toward zero. -/
def pyTrunc (q : ℚ) : ℤ :=
  if 0 ≤ q then ⌊q⌋ else ⌈q⌉

/-- Score sanitization shared by all validators:
`0.0 if (math.isnan(raw) or math.isinf(raw)) else max(0.0, min(1.0, raw))`. -/
def sanitizeScore : PyFloat → ℚ
  | .nan => 0
  | .inf => 0
  | .ninf => 0
  | .val q => max 0 (min 1 q)

/-! ## Python dictionary values

Wire payloads and `to_dict`/`from_dict` outputs are Python dicts holding
strings, numbers, booleans, `None`, lists and nested dicts.  We model them
with the JSON-like type `J`; a dict is an ordered association list (keys
are unique in every dict this code builds, so first-match lookup is
Python `dict.get`). -/

inductive J where
  | str (s : String)
  | int (n : ℤ)
  | rat (q : ℚ)
  | bool (b : Bool)
  | null
  | arr (xs : List J)
  | obj (kvs : List (String × J))
  deriving Repr

mutual

def J.beq : J → J → Bool
  | .str a, .str b => a == b
  | .int a, .int b => a == b
  | .rat a, .rat b => a == b
  | .bool a, .bool b => a == b
  | .null, .null => true
  | .arr a, .arr b => J.beqList a b
  | .obj a, .obj b => J.beqObj a b
  | _, _ => false

def J.beqList : List J → List J → Bool
  | [], [] => true
  | a :: as, b :: bs => J.beq a b && J.beqList as bs
  | _, _ => false

def J.beqObj : List (String × J) → List (String × J) → Bool
  | [], [] => true
  | (k, a) :: as, (l, b) :: bs => k == l && J.beq a b && J.beqObj as bs
  | _, _ => false

end

/-- `dict.get(k)`: first binding of `k` (keys are unique in this code). -/
def jLookup (kvs : List (String × J)) (k : String) : Option J :=
  (kvs.find? (fun kv => kv.1 = k)).map (fun kv => kv.2)

/-- Python truthiness of a dict value (`if data.get("attachments"):`). -/
def jTruthy : J → Bool
  | .str s => s ≠ ""
  | .int n => n ≠ 0
  | .rat q => q ≠ 0
  | .bool b => b
  | .null => false
  | .arr xs => !xs.isEmpty
  | .obj kvs => !kvs.isEmpty

/-! Decoders for dict values.  Each mirrors how the Python code consumes
the value: on the shapes the code actually produces or the claims touch
they are exact; any other dynamically-typed shape collapses to the
Python-side default of the consuming `get` call. -/

/-- An optional-string field read with `data.get(k)` (no default). -/
def jDecOptStr : Option J → Option String
  | some (.str s) => some s
  | _ => none

/-- A string field read with `data.get(k, dflt)`. -/
def jDecStrD (dflt : String) : Option J → String
  | some (.str s) => s
  | _ => dflt

/-- A bool field read with `data.get(k, dflt)`. -/
def jDecBoolD (dflt : Bool) : Option J → Bool
  | some (.bool b) => b
  | _ => dflt

/-- An int field read with `data.get(k, dflt)`. -/
def jDecIntD (dflt : ℤ) : Option J → ℤ
  | some (.int n) => n
  | _ => dflt

/-- A float field read with `data.get(k, dflt)`. -/
def jDecRatD (dflt : ℚ) : Option J → ℚ
  | some (.rat q) => q
  | _ => dflt

/-- A list-of-strings field read with `data.get(k, [])`. -/
def jDecListStrD : Option J → List String
  | some (.arr xs) => xs.map (fun j => jDecStrD "" (some j))
  | _ => []

/-- A string-to-string dict field read with `data.get(k, dflt)`. -/
def jDecStrMapD (dflt : List (String × String)) : Option J → List (String × String)
  | some (.obj kvs) => kvs.map (fun kv => (kv.1, jDecStrD "" (some kv.2)))
  | _ => dflt

/-! ## Request models (`backend/models/models.py`) -/

/-- `AttachmentRequest`: filename, size, content type and optional
base64-encoded byte content. -/
structure AttachmentRequest where
  filename : String
  size : ℤ
  content_type : String
  bytes : Option String := none
  deriving DecidableEq, Repr

/-- `EmailRequest`: every field optional.  `None` and the substituted
defaults are distinguished exactly as in the Python dataclass. -/
structure EmailRequest where
  subject : Option String := none
  body : Option String := none
  from_ : Option String := none
  -- `to` is a reserved token in this Lean setup; `to_` is the `to` field
  to_ : Option String := none
  cc : Option (List String) := some []
  bcc : Option (List String) := some []
  reply_to : Option String := none
  date : Option String := none
  attachments : Option (List AttachmentRequest) := some []
  headers : Option (List (String × String)) := some []
  deriving Repr

namespace EmailRequest

/-- One element of the `attachments` list in `EmailRequest.from_dict`:
`att.get(...)` raises unless the element is a dict. -/
def parseAttachment : J → Except String AttachmentRequest
  | .obj kvs =>
    .ok { filename := jDecStrD "" (jLookup kvs "filename")
          size := jDecIntD 0 (jLookup kvs "size")
          content_type := jDecStrD "" (jLookup kvs "content_type")
          bytes := jDecOptStr (jLookup kvs "bytes") }
  | _ => .error "attachment element is not a dict"

/-- The `attachments` handling of `EmailRequest.from_dict`: skipped when
the value is missing or falsy, iterated otherwise (iterating a truthy
non-list raises). -/
def parseAttachments : Option J → Except String (List AttachmentRequest)
  | none => .ok []
  | some v =>
    if jTruthy v then
      match v with
      | .arr xs => xs.mapM parseAttachment
      | _ => .error "attachments value is not iterable"
    else .ok []

/-- `data.get("cc", [])` consumed as a list of strings: the default is
substituted only when the key is missing; a present `None` stays `None`. -/
def getListOrDefault (v : Option J) : Option (List String) :=
  match v with
  | none => some []
  | some (.arr xs) => some (xs.map (fun j => jDecStrD "" (some j)))
  | some _ => none

/-- `data.get("headers", {})` consumed as a string dict, same defaulting. -/
def getMapOrDefault (v : Option J) : Option (List (String × String)) :=
  match v with
  | none => some []
  | some (.obj kvs) => some (kvs.map (fun kv => (kv.1, jDecStrD "" (some kv.2))))
  | some _ => none

/-- `EmailRequest.from_dict` (`models.py`). -/
def from_dict (kvs : List (String × J)) : Except String EmailRequest := do
  let attachments ← parseAttachments (jLookup kvs "attachments")
  return { subject := jDecOptStr (jLookup kvs "subject")
           body := jDecOptStr (jLookup kvs "body")
           from_ := jDecOptStr (jLookup kvs "from")
           to_ := jDecOptStr (jLookup kvs "to")
           cc := getListOrDefault (jLookup kvs "cc")
           bcc := getListOrDefault (jLookup kvs "bcc")
           reply_to := jDecOptStr (jLookup kvs "reply_to")
           date := jDecOptStr (jLookup kvs "date")
           attachments := some attachments
           headers := getMapOrDefault (jLookup kvs "headers") }

end EmailRequest

/-! ## Response models (`backend/models/models.py`)

`asdict` encoders emit every field in dataclass declaration order;
`from_dict` decoders read each key with the Python-side default. -/

/-- `asdict` encoding of an optional string (`None` becomes `null`). -/
def encOptStr : Option String → J
  | none => .null
  | some s => .str s

/-- `asdict` encoding of a list of strings. -/
def encListStr (xs : List String) : J :=
  .arr (xs.map .str)

/-- `asdict` encoding of a string-to-string dict. -/
def encStrMap (kvs : List (String × String)) : J :=
  .obj (kvs.map (fun kv => (kv.1, .str kv.2)))

/-- `MetadataAnalysis` response record. -/
structure MetadataAnalysis where
  date : Option String
  date_valid : Bool
  headers : List (String × String)
  header_count : ℤ
  has_message_id : Bool
  has_return_path : Bool
  has_received : Bool
  parsed_date : Option String := none
  deriving DecidableEq, Repr

namespace MetadataAnalysis

def asdict (m : MetadataAnalysis) : J :=
  .obj [("date", encOptStr m.date), ("date_valid", .bool m.date_valid),
        ("headers", encStrMap m.headers), ("header_count", .int m.header_count),
        ("has_message_id", .bool m.has_message_id),
        ("has_return_path", .bool m.has_return_path),
        ("has_received", .bool m.has_received),
        ("parsed_date", encOptStr m.parsed_date)]

/-- The metadata fragment of `EmailAnalysisResponse.from_dict`
(`metadata_dict = data.get("metadata", {})` then per-field `get`s). -/
def of_dict (v : Option J) : MetadataAnalysis :=
  let kvs := match v with | some (.obj kvs) => kvs | _ => []
  { date := jDecOptStr (jLookup kvs "date")
    date_valid := jDecBoolD false (jLookup kvs "date_valid")
    headers := jDecStrMapD [] (jLookup kvs "headers")
    header_count := jDecIntD 0 (jLookup kvs "header_count")
    has_message_id := jDecBoolD false (jLookup kvs "has_message_id")
    has_return_path := jDecBoolD false (jLookup kvs "has_return_path")
    has_received := jDecBoolD false (jLookup kvs "has_received")
    parsed_date := jDecOptStr (jLookup kvs "parsed_date") }

end MetadataAnalysis

/-- `ContentAnalysis` response record. -/
structure ContentAnalysis where
  subject : String
  subject_length : ℤ
  subject_uppercase_ratio : ℚ
  subject_has_suspicious_keywords : Bool
  subject_suspicious_keywords : List String
  subject_has_urls : Bool
  subject_urls : List String
  body_length : ℤ
  body_word_count : ℤ
  body_has_urls : Bool
  body_urls : List String
  body_has_suspicious_keywords : Bool
  body_suspicious_keywords : List String
  body_has_html : Bool
  body_has_images : Bool
  deriving DecidableEq, Repr

namespace ContentAnalysis

def asdict (c : ContentAnalysis) : J :=
  .obj [("subject", .str c.subject), ("subject_length", .int c.subject_length),
        ("subject_uppercase_ratio", .rat c.subject_uppercase_ratio),
        ("subject_has_suspicious_keywords", .bool c.subject_has_suspicious_keywords),
        ("subject_suspicious_keywords", encListStr c.subject_suspicious_keywords),
        ("subject_has_urls", .bool c.subject_has_urls),
        ("subject_urls", encListStr c.subject_urls),
        ("body_length", .int c.body_length),
        ("body_word_count", .int c.body_word_count),
        ("body_has_urls", .bool c.body_has_urls),
        ("body_urls", encListStr c.body_urls),
        ("body_has_suspicious_keywords", .bool c.body_has_suspicious_keywords),
        ("body_suspicious_keywords", encListStr c.body_suspicious_keywords),
        ("body_has_html", .bool c.body_has_html),
        ("body_has_images", .bool c.body_has_images)]

def of_dict (v : Option J) : ContentAnalysis :=
  let kvs := match v with | some (.obj kvs) => kvs | _ => []
  { subject := jDecStrD "" (jLookup kvs "subject")
    subject_length := jDecIntD 0 (jLookup kvs "subject_length")
    subject_uppercase_ratio := jDecRatD 0 (jLookup kvs "subject_uppercase_ratio")
    subject_has_suspicious_keywords := jDecBoolD false (jLookup kvs "subject_has_suspicious_keywords")
    subject_suspicious_keywords := jDecListStrD (jLookup kvs "subject_suspicious_keywords")
    subject_has_urls := jDecBoolD false (jLookup kvs "subject_has_urls")
    subject_urls := jDecListStrD (jLookup kvs "subject_urls")
    body_length := jDecIntD 0 (jLookup kvs "body_length")
    body_word_count := jDecIntD 0 (jLookup kvs "body_word_count")
    body_has_urls := jDecBoolD false (jLookup kvs "body_has_urls")
    body_urls := jDecListStrD (jLookup kvs "body_urls")
    body_has_suspicious_keywords := jDecBoolD false (jLookup kvs "body_has_suspicious_keywords")
    body_suspicious_keywords := jDecListStrD (jLookup kvs "body_suspicious_keywords")
    body_has_html := jDecBoolD false (jLookup kvs "body_has_html")
    body_has_images := jDecBoolD false (jLookup kvs "body_has_images") }

end ContentAnalysis

/-- `SenderAnalysis` response record; serializes its `from_` field under
the wire key `from`. -/
structure SenderAnalysis where
  from_ : String
  from_valid : Bool
  from_domain : Option String
  from_local_part : Option String
  reply_to : String
  reply_to_different : Bool
  has_display_name : Bool
  display_name : Option String
  deriving DecidableEq, Repr

namespace SenderAnalysis

/-- `SenderAnalysis.to_dict`: `asdict` followed by
`result["from"] = result.pop("from_")`, which removes the leading
`from_` entry and appends `from` at the end. -/
def to_dict (s : SenderAnalysis) : J :=
  .obj [("from_valid", .bool s.from_valid), ("from_domain", encOptStr s.from_domain),
        ("from_local_part", encOptStr s.from_local_part), ("reply_to", .str s.reply_to),
        ("reply_to_different", .bool s.reply_to_different),
        ("has_display_name", .bool s.has_display_name),
        ("display_name", encOptStr s.display_name),
        ("from", .str s.from_)]

def of_dict (v : Option J) : SenderAnalysis :=
  let kvs := match v with | some (.obj kvs) => kvs | _ => []
  { from_ := jDecStrD "" (jLookup kvs "from")
    from_valid := jDecBoolD false (jLookup kvs "from_valid")
    from_domain := jDecOptStr (jLookup kvs "from_domain")
    from_local_part := jDecOptStr (jLookup kvs "from_local_part")
    reply_to := jDecStrD "" (jLookup kvs "reply_to")
    reply_to_different := jDecBoolD false (jLookup kvs "reply_to_different")
    has_display_name := jDecBoolD false (jLookup kvs "has_display_name")
    display_name := jDecOptStr (jLookup kvs "display_name") }

end SenderAnalysis

/-- `RecipientAnalysis` response record. -/
structure RecipientAnalysis where
  to_count : ℤ
  to_addresses : List String
  cc_count : ℤ
  cc_addresses : List String
  bcc_count : ℤ
  bcc_addresses : List String
  total_recipients : ℤ
  unique_domains : List String
  unique_domain_count : ℤ
  has_cc : Bool
  has_bcc : Bool
  deriving DecidableEq, Repr

namespace RecipientAnalysis

def asdict (r : RecipientAnalysis) : J :=
  .obj [("to_count", .int r.to_count), ("to_addresses", encListStr r.to_addresses),
        ("cc_count", .int r.cc_count), ("cc_addresses", encListStr r.cc_addresses),
        ("bcc_count", .int r.bcc_count), ("bcc_addresses", encListStr r.bcc_addresses),
        ("total_recipients", .int r.total_recipients),
        ("unique_domains", encListStr r.unique_domains),
        ("unique_domain_count", .int r.unique_domain_count),
        ("has_cc", .bool r.has_cc), ("has_bcc", .bool r.has_bcc)]

def of_dict (v : Option J) : RecipientAnalysis :=
  let kvs := match v with | some (.obj kvs) => kvs | _ => []
  { to_count := jDecIntD 0 (jLookup kvs "to_count")
    to_addresses := jDecListStrD (jLookup kvs "to_addresses")
    cc_count := jDecIntD 0 (jLookup kvs "cc_count")
    cc_addresses := jDecListStrD (jLookup kvs "cc_addresses")
    bcc_count := jDecIntD 0 (jLookup kvs "bcc_count")
    bcc_addresses := jDecListStrD (jLookup kvs "bcc_addresses")
    total_recipients := jDecIntD 0 (jLookup kvs "total_recipients")
    unique_domains := jDecListStrD (jLookup kvs "unique_domains")
    unique_domain_count := jDecIntD 0 (jLookup kvs "unique_domain_count")
    has_cc := jDecBoolD false (jLookup kvs "has_cc")
    has_bcc := jDecBoolD false (jLookup kvs "has_bcc") }

end RecipientAnalysis

/-- `AttachmentFileInfo` response record. -/
structure AttachmentFileInfo where
  filename : String
  size : ℤ
  content_type : String
  extension : String
  deriving DecidableEq, Repr

namespace AttachmentFileInfo

def asdict (f : AttachmentFileInfo) : J :=
  .obj [("filename", .str f.filename), ("size", .int f.size),
        ("content_type", .str f.content_type), ("extension", .str f.extension)]

def of_dict (v : J) : AttachmentFileInfo :=
  let kvs := match v with | .obj kvs => kvs | _ => []
  { filename := jDecStrD "" (jLookup kvs "filename")
    size := jDecIntD 0 (jLookup kvs "size")
    content_type := jDecStrD "" (jLookup kvs "content_type")
    extension := jDecStrD "" (jLookup kvs "extension") }

end AttachmentFileInfo

/-- `AttachmentAnalysis` response record. -/
structure AttachmentAnalysis where
  count : ℤ
  total_size : ℤ
  files : List AttachmentFileInfo
  has_executables : Bool
  has_scripts : Bool
  suspicious_extensions : List String
  executable_extensions : List String
  script_extensions : List String
  deriving DecidableEq, Repr

namespace AttachmentAnalysis

def asdict (a : AttachmentAnalysis) : J :=
  .obj [("count", .int a.count), ("total_size", .int a.total_size),
        ("files", .arr (a.files.map AttachmentFileInfo.asdict)),
        ("has_executables", .bool a.has_executables),
        ("has_scripts", .bool a.has_scripts),
        ("suspicious_extensions", encListStr a.suspicious_extensions),
        ("executable_extensions", encListStr a.executable_extensions),
        ("script_extensions", encListStr a.script_extensions)]

def of_dict (v : Option J) : AttachmentAnalysis :=
  let kvs := match v with | some (.obj kvs) => kvs | _ => []
  let files := match jLookup kvs "files" with
    | some (.arr xs) => xs.map AttachmentFileInfo.of_dict
    | _ => []
  { count := jDecIntD 0 (jLookup kvs "count")
    total_size := jDecIntD 0 (jLookup kvs "total_size")
    files := files
    has_executables := jDecBoolD false (jLookup kvs "has_executables")
    has_scripts := jDecBoolD false (jLookup kvs "has_scripts")
    suspicious_extensions := jDecListStrD (jLookup kvs "suspicious_extensions")
    executable_extensions := jDecListStrD (jLookup kvs "executable_extensions")
    script_extensions := jDecListStrD (jLookup kvs "script_extensions") }

end AttachmentAnalysis

/-- `SecurityAnalysis` response record. -/
structure SecurityAnalysis where
  suspicious_indicators : List String
  risk_level : String
  flags : List String
  deriving DecidableEq, Repr

namespace SecurityAnalysis

def asdict (s : SecurityAnalysis) : J :=
  .obj [("suspicious_indicators", encListStr s.suspicious_indicators),
        ("risk_level", .str s.risk_level), ("flags", encListStr s.flags)]

def of_dict (v : Option J) : SecurityAnalysis :=
  let kvs := match v with | some (.obj kvs) => kvs | _ => []
  { suspicious_indicators := jDecListStrD (jLookup kvs "suspicious_indicators")
    risk_level := jDecStrD "low" (jLookup kvs "risk_level")
    flags := jDecListStrD (jLookup kvs "flags") }

end SecurityAnalysis

/-- `EmailAnalysisResponse`: the complete analysis response. -/
structure EmailAnalysisResponse where
  timestamp : String
  metadata : MetadataAnalysis
  content_analysis : ContentAnalysis
  sender_analysis : SenderAnalysis
  recipient_analysis : RecipientAnalysis
  attachment_analysis : AttachmentAnalysis
  security_analysis : SecurityAnalysis
  overall_score : ℤ
  error : Option String := none
  deriving DecidableEq, Repr

namespace EmailAnalysisResponse

/-- The `error` entry of `to_dict`: emitted only when `self.error` is
truthy (so a `None` error and an empty-string error are both omitted). -/
def errorEntry (e : Option String) : List (String × J) :=
  match e with
  | some msg => if msg = "" then [] else [("error", .str msg)]
  | none => []

/-- `EmailAnalysisResponse.to_dict` (`models.py`). -/
def to_dict (r : EmailAnalysisResponse) : J :=
  .obj (("timestamp", .str r.timestamp)
    :: ("metadata", r.metadata.asdict)
    :: ("content_analysis", r.content_analysis.asdict)
    :: ("sender_analysis", r.sender_analysis.to_dict)
    :: ("recipient_analysis", r.recipient_analysis.asdict)
    :: ("attachment_analysis", r.attachment_analysis.asdict)
    :: ("security_analysis", r.security_analysis.asdict)
    :: ("overall_score", .int r.overall_score)
    :: errorEntry r.error)

/-- `EmailAnalysisResponse.from_dict` (`models.py`).  A missing
`timestamp` defaults in Python to the current wall-clock time, which is
unreachable for serialized responses (they always carry one); it is
modelled here as `""`. -/
def from_dict (v : J) : EmailAnalysisResponse :=
  let kvs := match v with | .obj kvs => kvs | _ => []
  { timestamp := jDecStrD "" (jLookup kvs "timestamp")
    metadata := MetadataAnalysis.of_dict (jLookup kvs "metadata")
    content_analysis := ContentAnalysis.of_dict (jLookup kvs "content_analysis")
    sender_analysis := SenderAnalysis.of_dict (jLookup kvs "sender_analysis")
    recipient_analysis := RecipientAnalysis.of_dict (jLookup kvs "recipient_analysis")
    attachment_analysis := AttachmentAnalysis.of_dict (jLookup kvs "attachment_analysis")
    security_analysis := SecurityAnalysis.of_dict (jLookup kvs "security_analysis")
    overall_score := jDecIntD 0 (jLookup kvs "overall_score")
    error := jDecOptStr (jLookup kvs "error") }

end EmailAnalysisResponse

/-! ## Analysis context (`backend/service/context.py` is a plain field
bag created around the request; validators attach their result fields,
modelled as `Option` fields that start absent) -/

/-- One entry of `context.url_detection_results`: success entries carry a
label, failure entries carry an error message instead. -/
structure UrlDetectionResult where
  url : String
  is_malicious : Bool
  score : ℚ
  label : Option String := none
  error : Option String := none
  deriving DecidableEq, Repr

/-- One entry of `context.malware_detection_results`. -/
structure MalwareDetectionResult where
  filename : String
  is_malicious : Bool
  confidence : ℚ
  deriving DecidableEq, Repr

/-- The per-request mutable analysis context. -/
structure Context where
  email_request : EmailRequest
  email_body_phishing_score : Option ℚ := none
  email_body_is_phishing : Option Bool := none
  sender_phishing_score : Option ℚ := none
  sender_is_phishing : Option Bool := none
  subject_phishing_score : Option ℚ := none
  subject_is_phishing : Option Bool := none
  fraud_score : Option ℚ := none
  is_fraud : Option Bool := none
  url_detection_results : Option (List UrlDetectionResult) := none
  malicious_url_count : Option ℤ := none
  malware_detection_results : Option (List MalwareDetectionResult) := none
  deriving Repr

/-- `Context(email_request)`: a fresh context with no validator output. -/
def Context.init (req : EmailRequest) : Context :=
  { email_request := req }

/-! ## Classifier interface

Each validator wraps a pretrained text classifier invoked as an opaque
function.  An invocation either raises (`err`) or returns a list of
`{label, score}` dictionaries (`ok`); the validators only look at the
head of that list. -/

/-- The top entry of a classifier result: `{"label": ..., "score": ...}`. -/
structure LabelScore where
  label : String
  score : PyFloat
  deriving DecidableEq, Repr

/-- Outcome of one classifier invocation. -/
inductive ClassifierResult where
  | ok (results : List LabelScore)
  | err (msg : String)
  deriving DecidableEq, Repr

/-! ## Phishing / fraud text validators
(`backend/service/phising/email.py`, `sender.py`, `subject.py`,
`backend/service/fraud/fraud_detection.py`) -/

/-- `_truncate_text` shared by the text validators: texts within the
`max_tokens * 3` character budget pass through; longer texts are cut to
the budget and then to the word boundary via `rsplit(' ', 1)[0]`. -/
def truncate_text (text : String) (max_tokens : ℕ) : String :=
  let max_chars := max_tokens * 3
  if text.length ≤ max_chars then text
  else String.mk (rsplitSpaceHead (text.toList.take max_chars))

/-- `Email.validate` (`phising/email.py`): classifies the email body and
writes `email_body_phishing_score` / `email_body_is_phishing`. -/
def emailValidate (classify : String → ClassifierResult) (max_length : ℕ)
    (ctx : Context) : Context :=
  if optStrFalsy ctx.email_request.body then
    { ctx with email_body_phishing_score := some 0, email_body_is_phishing := some false }
  else
    let body_text := ctx.email_request.body.getD ""
    match classify (truncate_text body_text max_length) with
    | .err _ =>
      { ctx with email_body_phishing_score := some 0, email_body_is_phishing := some false }
    | .ok [] =>
      { ctx with email_body_phishing_score := some 0, email_body_is_phishing := some false }
    | .ok (first :: _) =>
      let score := sanitizeScore first.score
      let label := lowerStr first.label
      { ctx with email_body_phishing_score := some score,
                 email_body_is_phishing :=
                   some (strIn "phishing" label || strIn "malicious" label
                     || decide (score > 1/2)) }

/-- `Sender.validate` (`phising/sender.py`): classifies the `from`
address and writes `sender_phishing_score` / `sender_is_phishing`. -/
def senderValidate (classify : String → ClassifierResult) (max_length : ℕ)
    (ctx : Context) : Context :=
  if optStrFalsy ctx.email_request.from_ then
    { ctx with sender_phishing_score := some 0, sender_is_phishing := some false }
  else
    let sender_text := ctx.email_request.from_.getD ""
    match classify (truncate_text sender_text max_length) with
    | .err _ =>
      { ctx with sender_phishing_score := some 0, sender_is_phishing := some false }
    | .ok [] =>
      { ctx with sender_phishing_score := some 0, sender_is_phishing := some false }
    | .ok (first :: _) =>
      let score := sanitizeScore first.score
      let label := lowerStr first.label
      { ctx with sender_phishing_score := some score,
                 sender_is_phishing :=
                   some (strIn "phishing" label || strIn "malicious" label
                     || decide (score > 1/2)) }

/-- `Subject.validate` (`phising/subject.py`): classifies the subject
line and writes `subject_phishing_score` / `subject_is_phishing`. -/
def subjectValidate (classify : String → ClassifierResult) (max_length : ℕ)
    (ctx : Context) : Context :=
  if optStrFalsy ctx.email_request.subject then
    { ctx with subject_phishing_score := some 0, subject_is_phishing := some false }
  else
    let subject_text := ctx.email_request.subject.getD ""
    match classify (truncate_text subject_text max_length) with
    | .err _ =>
      { ctx with subject_phishing_score := some 0, subject_is_phishing := some false }
    | .ok [] =>
      { ctx with subject_phishing_score := some 0, subject_is_phishing := some false }
    | .ok (first :: _) =>
      let score := sanitizeScore first.score
      let label := lowerStr first.label
      { ctx with subject_phishing_score := some score,
                 subject_is_phishing :=
                   some (strIn "phishing" label || strIn "malicious" label
                     || decide (score > 1/2)) }

/-- `FraudDetection.validate` (`fraud/fraud_detection.py`): classifies
the body for fraud language and writes `fraud_score` / `is_fraud`.
It exists in the repository but is NOT part of the production flow. -/
def fraudValidate (classify : String → ClassifierResult) (max_length : ℕ)
    (ctx : Context) : Context :=
  if optStrFalsy ctx.email_request.body then
    { ctx with fraud_score := some 0, is_fraud := some false }
  else
    let body_text := ctx.email_request.body.getD ""
    match classify (truncate_text body_text max_length) with
    | .err _ => { ctx with fraud_score := some 0, is_fraud := some false }
    | .ok [] => { ctx with fraud_score := some 0, is_fraud := some false }
    | .ok (first :: _) =>
      let score := sanitizeScore first.score
      let label := lowerStr first.label
      { ctx with fraud_score := some score,
                 is_fraud :=
                   some (strIn "fraud" label || strIn "malicious" label
                     || decide (score > 1/2)) }

/-! ## Malicious-URL detector (`backend/service/url/MaliciousUrlDetector.py`) -/

/-- One character of the URL regex body
`(?:[a-zA-Z]|[0-9]|[$-_@.&+]|[!*\\(\\),]|(?:%[0-9a-fA-F][0-9a-fA-F]))`:
`[$-_@.&+]` is the byte range `$`..`_` (which already contains the digits,
the capitals, `%`, `@`, `.`, `&`, `+`, `\`, `(`, `)`, `*` and `,`), so the
class is that range plus lowercase letters and `!`; the `%XX` alternative
is subsumed because `%` lies inside the range and the `+` repetition is a
plain greedy single-character loop. -/
def urlChar (c : Char) : Bool :=
  (('a' ≤ c && c ≤ 'z') || ('A' ≤ c && c ≤ 'Z')) || ('0' ≤ c && c ≤ '9')
    || ('$' ≤ c && c ≤ '_')
    || c == '@' || c == '.' || c == '&' || c == '+'
    || c == '!' || c == '*' || c == '\\' || c == '(' || c == ')' || c == ','

/-- Try to match `http[s]?://(urlChar)+` at the start of `s`; on success
return the matched text and the remaining input. -/
def tryMatchUrl (s : List Char) : Option (List Char × List Char) :=
  match s with
  | 'h' :: 't' :: 't' :: 'p' :: rest =>
    let afterScheme : Option (List Char × List Char) :=
      match rest with
      | 's' :: ':' :: '/' :: '/' :: tail => some (['h','t','t','p','s',':','/','/'], tail)
      | ':' :: '/' :: '/' :: tail => some (['h','t','t','p',':','/','/'], tail)
      | _ => none
    match afterScheme with
    | none => none
    | some (scheme, tail) =>
      let run := tail.takeWhile urlChar
      if run.isEmpty then none
      else some (scheme ++ run, tail.dropWhile urlChar)
  | _ => none

/-- `re.findall` of the URL pattern: scan left to right, match at each
position, continue after each (non-empty) match.  The fuel argument only
bounds the recursion: every step strictly shortens the input, so
`s.length + 1` is always enough. -/
def findUrlsAux : ℕ → List Char → List (List Char)
  | 0, _ => []
  | _ + 1, [] => []
  | fuel + 1, c :: rest =>
    match tryMatchUrl (c :: rest) with
    | some (m, rem) => m :: findUrlsAux fuel rem
    | none => findUrlsAux fuel rest

/-- `self.url_pattern.findall(text)`. -/
def extractUrls (text : String) : List String :=
  (findUrlsAux (text.length + 1) text.toList).map String.mk

/-- The per-URL body of `MaliciousUrlDetector.validate`'s loop: what it
appends for one URL (and nothing is appended when the classifier returns
a malformed, empty result list). -/
def urlStep (classify : String → ClassifierResult) (max_length : ℕ)
    (url : String) : Option UrlDetectionResult :=
  let truncated_url := if url.length > max_length * 3
    then String.mk (url.toList.take (max_length * 3)) else url
  match classify truncated_url with
  | .err msg => some { url := url, is_malicious := false, score := 0, error := some msg }
  | .ok [] => none
  | .ok (first :: _) =>
    let score := sanitizeScore first.score
    let label := lowerStr first.label
    let is_malicious := strIn "malicious" label || strIn "phishing" label
      || decide (score > 1/2)
    some { url := url, is_malicious := is_malicious, score := score, label := some label }

/-- The accumulation loop of `MaliciousUrlDetector.validate`: appends to
`url_detection_results` and bumps `malicious_url_count` per true verdict. -/
def urlLoop (classify : String → ClassifierResult) (max_length : ℕ)
    (urls : List String) (acc : List UrlDetectionResult × ℤ) :
    List UrlDetectionResult × ℤ :=
  match urls with
  | [] => acc
  | url :: rest =>
    match urlStep classify max_length url with
    | none => urlLoop classify max_length rest acc
    | some r =>
      urlLoop classify max_length rest
        (acc.1 ++ [r], acc.2 + if r.is_malicious then 1 else 0)

/-- `MaliciousUrlDetector.validate`: extracts URLs from the body and
classifies each one independently. -/
def urlDetectorValidate (classify : String → ClassifierResult) (max_length : ℕ)
    (ctx : Context) : Context :=
  if optStrFalsy ctx.email_request.body then
    { ctx with url_detection_results := some [], malicious_url_count := some 0 }
  else
    let urls := extractUrls (ctx.email_request.body.getD "")
    let acc := urlLoop classify max_length urls ([], 0)
    { ctx with url_detection_results := some acc.1, malicious_url_count := some acc.2 }

/-! ## Malware-attachment detector -/

/-- Modelled from the spec: the MalConv malware-attachment detector
(`backend/service/malware/malconv.py`, whose source file is not present
in the tree).  Per §4.6 it decodes each attachment carrying a `bytes`
field, classifies it, appends one `{filename, is_malicious, confidence}`
entry per analyzable attachment to `context.malware_detection_results`
(recording failures as benign), skips attachments without bytes, and
touches no other context field. -/
def malconvValidate (classifyBytes : String → ClassifierResult)
    (ctx : Context) : Context :=
  let atts := ctx.email_request.attachments.getD []
  let results := atts.filterMap (fun att =>
    match att.bytes with
    | none => none
    | some b =>
      match classifyBytes b with
      | .err _ => some { filename := att.filename, is_malicious := false, confidence := 0 }
      | .ok [] => some { filename := att.filename, is_malicious := false, confidence := 0 }
      | .ok (first :: _) =>
        let confidence := sanitizeScore first.score
        some { filename := att.filename,
               is_malicious := decide (confidence > 1/2), confidence := confidence })
  { ctx with malware_detection_results := some results }

/-! ## The production validator pipeline (`backend/app.py`) -/

/-- The classifier functions and per-model input limits the five wired
validator instances close over (one classifier per loaded model). -/
structure FlowModels where
  bodyClassifier : String → ClassifierResult
  senderClassifier : String → ClassifierResult
  subjectClassifier : String → ClassifierResult
  urlClassifier : String → ClassifierResult
  malwareClassifier : String → ClassifierResult
  bodyMaxLength : ℕ := 512
  senderMaxLength : ℕ := 512
  subjectMaxLength : ℕ := 512
  urlMaxLength : ℕ := 512

/-- The `flow` list of `backend/app.py` (lines 45-51): exactly five
validators — `Email()`, `Sender()`, `Subject()`, `MaliciousUrlDetector()`,
`MalConvDetector()`.  `FraudDetection` is never constructed or wired. -/
def flow (m : FlowModels) : List (Context → Context) :=
  [emailValidate m.bodyClassifier m.bodyMaxLength,
   senderValidate m.senderClassifier m.senderMaxLength,
   subjectValidate m.subjectClassifier m.subjectMaxLength,
   urlDetectorValidate m.urlClassifier m.urlMaxLength,
   malconvValidate m.malwareClassifier]

/-- `for validator in flow: validator.validate(context)` — the pipeline
run by both `/analyze` and `/analyze/batch`. -/
def runFlow (validators : List (Context → Context)) (ctx : Context) : Context :=
  validators.foldl (fun c v => v c) ctx

/-! ## Response Builder fragments (`backend/service/response_builder.py`) -/

/-- `_build_sender`'s validity test:
`"@" in addr and "." in addr.split("@")[1] if addr else False`.
Note the second conjunct inspects `addr.split("@")[1]` — the segment
between the first and second `@` when the address has several. -/
def fromValid (addr : String) : Bool :=
  if addr = "" then false
  else addr.toList.contains '@'
    && ((splitOnChar '@' addr.toList).getD 1 []).contains '.'

/-- `ResponseBuilder._build_sender`, parametrized by the
`email.utils.parseaddr` output `(name, addr)` for the raw `from` string
(the parser itself is Python standard library, external to this repo). -/
def build_sender (name addr : String) (email : EmailRequest) : SenderAnalysis :=
  let from_addr := email.from_.getD ""
  let lp_dom : Option String × Option String :=
    match splitFirstChar '@' addr.toList with
    | some (before, after) => (some (String.mk before), some (String.mk after))
    | none => (none, none)
  let reply_to := email.reply_to.getD ""
  { from_ := from_addr
    from_valid := fromValid addr
    from_domain := lp_dom.2
    from_local_part := lp_dom.1
    reply_to := reply_to
    reply_to_different := reply_to ≠ "" && reply_to ≠ addr
    has_display_name := name ≠ ""
    display_name := if name ≠ "" then some name else none }

/-- `ResponseBuilder._calculate_overall_score`: Python `int(...)` is
truncation toward zero (`pyTrunc`); each term is guarded by a `hasattr`
presence check; the sum is capped with `min(score, 100)`. -/
def calculate_overall_score (ctx : Context) : ℤ :=
  let s1 := match ctx.email_body_phishing_score with
    | some q => pyTrunc (q * 30) | none => 0
  let s2 := match ctx.sender_phishing_score with
    | some q => pyTrunc (q * 20) | none => 0
  let s3 := match ctx.subject_phishing_score with
    | some q => pyTrunc (q * 15) | none => 0
  let s4 := match ctx.fraud_score with
    | some q => pyTrunc (q * 20) | none => 0
  let s5 := match ctx.malicious_url_count with
    | some n => min (n * 5) 15 | none => 0
  let s6 := match ctx.malware_detection_results with
    | some results =>
      match results.find? (fun r => r.is_malicious) with
      | some r => pyTrunc (r.confidence * 20)
      | none => 0
    | none => 0
  min (s1 + s2 + s3 + s4 + s5 + s6) 100

/-- The spec's overall-score formula, written with mathematical `floor`
exactly as §4.7 states it, for comparison with the implementation. -/
def specOverallScore (ctx : Context) : ℤ :=
  let t1 := match ctx.email_body_phishing_score with
    | some q => ⌊q * 30⌋ | none => 0
  let t2 := match ctx.sender_phishing_score with
    | some q => ⌊q * 20⌋ | none => 0
  let t3 := match ctx.subject_phishing_score with
    | some q => ⌊q * 15⌋ | none => 0
  let t4 := match ctx.fraud_score with
    | some q => ⌊q * 20⌋ | none => 0
  let t5 := match ctx.malicious_url_count with
    | some n => min (n * 5) 15 | none => 0
  let t6 := match ctx.malware_detection_results with
    | some results =>
      match results.find? (fun r => r.is_malicious) with
      | some r => ⌊r.confidence * 20⌋
      | none => 0
    | none => 0
  min (t1 + t2 + t3 + t4 + t5 + t6) 100

/-! ## Legacy rule-based analyzer (`email_analyzer.py`) -/

/-- An attachment row as `_analyze_attachments` consumes it (after the
`att.get(...)` defaulting). -/
structure LegacyAttachment where
  filename : String := ""
  size : ℤ := 0
  content_type : String := ""
  deriving DecidableEq, Repr

/-- `EmailAnalyzer._get_extension`: lower-cased text after the last dot,
with the dot, or `""` when the filename has no dot. -/
def get_extension (filename : String) : String :=
  if filename.toList.contains '.' then
    match splitFirstChar '.' filename.toList.reverse with
    | some (revExt, _) => String.mk ('.' :: (revExt.reverse.map Char.toLower))
    | none => ""
  else ""

/-- The executable-extension list of `_analyze_attachments`. -/
def legacyExecutableExts : List String :=
  [".exe", ".bat", ".cmd", ".com", ".pif", ".scr", ".vbs", ".js"]

/-- The script-extension list of `_analyze_attachments`. -/
def legacyScriptExts : List String :=
  [".js", ".vbs", ".ps1", ".sh", ".py"]

/-- The result dict of `EmailAnalyzer._analyze_attachments`. -/
structure LegacyAttachmentAnalysis where
  count : ℤ
  total_size : ℤ
  files : List AttachmentFileInfo
  has_executables : Bool
  has_scripts : Bool
  suspicious_extensions : List String
  executable_extensions : List String
  script_extensions : List String
  deriving DecidableEq, Repr

/-- One iteration of the `_analyze_attachments` loop: record the file
info, add the size, then test the extension against the executable list
and — only via `elif`, when that fails — against the script list. -/
def legacyAttachStep (st : LegacyAttachmentAnalysis) (att : LegacyAttachment) :
    LegacyAttachmentAnalysis :=
  let file_info : AttachmentFileInfo :=
    { filename := att.filename, size := att.size,
      content_type := att.content_type, extension := get_extension att.filename }
  let st := { st with files := st.files ++ [file_info],
                      total_size := st.total_size + att.size }
  let ext := lowerStr file_info.extension
  if legacyExecutableExts.contains ext then
    { st with has_executables := true,
              suspicious_extensions := st.suspicious_extensions ++ [ext] }
  else if legacyScriptExts.contains ext then
    { st with has_scripts := true,
              suspicious_extensions := st.suspicious_extensions ++ [ext] }
  else st

/-- `EmailAnalyzer._analyze_attachments`. -/
def analyze_attachments (attachments : List LegacyAttachment) :
    LegacyAttachmentAnalysis :=
  attachments.foldl legacyAttachStep
    { count := attachments.length, total_size := 0, files := [],
      has_executables := false, has_scripts := false,
      suspicious_extensions := [],
      executable_extensions := legacyExecutableExts,
      script_extensions := legacyScriptExts }

/-! ## Evaluation-harness label normalization (`e2e/main.py`) -/

/-- A dataset label value as Python sees it: `isinstance` checks give
bools, ints, floats (finite here; a non-finite float would raise in
`int(...)` upstream of any result) and strings special treatment, and
everything else falls to the default. -/
inductive PyLabel where
  | pybool (b : Bool)
  | pyint (n : ℤ)
  | pyfloat (q : ℚ)
  | pystr (s : String)
  | pyother
  deriving DecidableEq, Repr

/-- The phishing/spam indicator strings of `_normalize_label`. -/
def positiveLabelStrings : List String :=
  ["1", "true", "yes", "spam", "phishing", "malicious", "bad"]

/-- The legitimate indicator strings of `_normalize_label`. -/
def negativeLabelStrings : List String :=
  ["0", "false", "no", "ham", "legitimate", "benign", "good", "safe"]

/-- `DatasetLoader._normalize_label`: note the numeric branch first
converts with `int(label)` (truncation toward zero) and only then
compares, and that both the unrecognized-string case and the
unknown-type case fall through to the default `0`. -/
def normalize_label : PyLabel → ℤ
  | .pybool b => if b then 1 else 0
  | .pyint n => if n = 1 ∨ 0 < n then 1 else 0
  | .pyfloat q => if pyTrunc q = 1 ∨ 0 < pyTrunc q then 1 else 0
  | .pystr s =>
    let label_lower := pyStrip (lowerStr s)
    if label_lower ∈ positiveLabelStrings then 1
    else if label_lower ∈ negativeLabelStrings then 0
    else 0
  | .pyother => 0

/-- Python `"k" in d` for a dict value: whether the key is present. -/
def jHasKey (j : J) (k : String) : Bool :=
  match j with
  | .obj kvs => (jLookup kvs k).isSome
  | _ => false

/-! ## Spec-side formulations (written from the specification's words,
for comparison with the implementation) -/

/-- The claim's sender-validity rule as stated: the address contains `@`
and the substring after the FIRST `@` contains a `.`. -/
def claimedFromValid (addr : String) : Bool :=
  addr.toList.contains '@'
    && (match splitFirstChar '@' addr.toList with
        | some (_, after) => after.contains '.'
        | none => false)

/-- The amended sender-validity rule: the `.` must occur in the segment
between the first and the second `@` (the whole remainder when the
address has only one `@`). -/
def claimedFromValidAmended (addr : String) : Bool :=
  addr.toList.contains '@'
    && (match splitFirstChar '@' addr.toList with
        | some (_, after) => (after.takeWhile (fun c => c ≠ '@')).contains '.'
        | none => false)

/-- The amended label normalization: booleans map directly; a numeric
label maps to 1 exactly when its value is at least 1 (the implementation
truncates toward zero before comparing, so positive values below 1 map
to 0); strings via the two fixed sets, anything else to 0. -/
def claimedLabelAmended : PyLabel → ℤ
  | .pybool b => if b then 1 else 0
  | .pyint n => if 1 ≤ n then 1 else 0
  | .pyfloat q => if 1 ≤ q then 1 else 0
  | .pystr s =>
    if pyStrip (lowerStr s) ∈ positiveLabelStrings then 1
    else if pyStrip (lowerStr s) ∈ negativeLabelStrings then 0
    else 0
  | .pyother => 0

/-! ## Concrete instances used by counterexamples and witnesses -/

/-- A context as the claims' worked example populates it: body phishing
score 0.9, four malicious URLs, every other signal present and zero, and
no malicious attachments. -/
def exampleScoreContext : Context :=
  { email_request := {}
    email_body_phishing_score := some (9/10)
    sender_phishing_score := some 0
    subject_phishing_score := some 0
    fraud_score := some 0
    malicious_url_count := some 4
    malware_detection_results := some [] }

/-- A minimal fully-populated analysis response whose `error` field is
set to the empty string. -/
def sampleResponseEmptyError : EmailAnalysisResponse :=
  { timestamp := "2024-01-01T00:00:00"
    metadata := { date := none, date_valid := false, headers := [], header_count := 0,
                  has_message_id := false, has_return_path := false, has_received := false }
    content_analysis := { subject := "", subject_length := 0, subject_uppercase_ratio := 0,
                          subject_has_suspicious_keywords := false,
                          subject_suspicious_keywords := [], subject_has_urls := false,
                          subject_urls := [], body_length := 0, body_word_count := 0,
                          body_has_urls := false, body_urls := [],
                          body_has_suspicious_keywords := false,
                          body_suspicious_keywords := [], body_has_html := false,
                          body_has_images := false }
    sender_analysis := { from_ := "", from_valid := false, from_domain := none,
                         from_local_part := none, reply_to := "",
                         reply_to_different := false, has_display_name := false,
                         display_name := none }
    recipient_analysis := { to_count := 0, to_addresses := [], cc_count := 0,
                            cc_addresses := [], bcc_count := 0, bcc_addresses := [],
                            total_recipients := 0, unique_domains := [],
                            unique_domain_count := 0, has_cc := false, has_bcc := false }
    attachment_analysis := { count := 0, total_size := 0, files := [],
                             has_executables := false, has_scripts := false,
                             suspicious_extensions := [], executable_extensions := [],
                             script_extensions := [] }
    security_analysis := { suspicious_indicators := [], risk_level := "low", flags := [] }
    overall_score := 0
    error := some "" }

/-- The same response with no error set. -/
def sampleResponseNoError : EmailAnalysisResponse :=
  { sampleResponseEmptyError with error := none }

/-- Classifier models that always fail (every classifier call raises). -/
def failingModels : FlowModels :=
  { bodyClassifier := fun _ => .err "model unavailable"
    senderClassifier := fun _ => .err "model unavailable"
    subjectClassifier := fun _ => .err "model unavailable"
    urlClassifier := fun _ => .err "model unavailable"
    malwareClassifier := fun _ => .err "model unavailable" }

/-! ## Helper lemmas -/

theorem sanitizeScore_nonneg (f : PyFloat) : 0 ≤ sanitizeScore f := by
  cases f <;> simp [sanitizeScore, le_max_iff]

theorem pyTrunc_eq_floor (q : ℚ) (h : 0 ≤ q) : pyTrunc q = ⌊q⌋ := by
  simp [pyTrunc, h]

theorem jDecOptStr_encOptStr (o : Option String) : jDecOptStr (some (encOptStr o)) = o := by
  cases o <;> rfl

theorem jDecListStrD_encListStr (xs : List String) :
    jDecListStrD (some (encListStr xs)) = xs := by
  induction xs with
  | nil => rfl
  | cons a t ih =>
    simpa [jDecListStrD, encListStr, jDecStrD] using ih

theorem jDecStrMapD_encStrMap (d : List (String × String)) (kvs : List (String × String)) :
    jDecStrMapD d (some (encStrMap kvs)) = kvs := by
  induction kvs with
  | nil => rfl
  | cons a t ih =>
    simpa [jDecStrMapD, encStrMap, jDecStrD] using ih

theorem metadataAnalysis_of_asdict (m : MetadataAnalysis) :
    MetadataAnalysis.of_dict (some m.asdict) = m := by
  cases m
  simp [MetadataAnalysis.of_dict, MetadataAnalysis.asdict, jLookup, List.find?, jDecOptStr_encOptStr, jDecBoolD, jDecIntD,
    jDecStrMapD_encStrMap]

theorem contentAnalysis_of_asdict (c : ContentAnalysis) :
    ContentAnalysis.of_dict (some c.asdict) = c := by
  cases c
  simp [ContentAnalysis.of_dict, ContentAnalysis.asdict, jLookup, List.find?, jDecStrD, jDecBoolD, jDecIntD, jDecRatD,
    jDecListStrD_encListStr]

theorem senderAnalysis_of_to_dict (s : SenderAnalysis) :
    SenderAnalysis.of_dict (some s.to_dict) = s := by
  cases s
  simp [SenderAnalysis.of_dict, SenderAnalysis.to_dict, jLookup, List.find?, jDecStrD, jDecBoolD, jDecOptStr_encOptStr]

theorem recipientAnalysis_of_asdict (r : RecipientAnalysis) :
    RecipientAnalysis.of_dict (some r.asdict) = r := by
  cases r
  simp [RecipientAnalysis.of_dict, RecipientAnalysis.asdict, jLookup, List.find?, jDecIntD, jDecBoolD, jDecListStrD_encListStr]

theorem attachmentFileInfo_of_asdict (f : AttachmentFileInfo) :
    AttachmentFileInfo.of_dict f.asdict = f := by
  cases f
  simp [AttachmentFileInfo.of_dict, AttachmentFileInfo.asdict, jLookup, List.find?, jDecStrD, jDecIntD]

theorem attachmentAnalysis_of_asdict (a : AttachmentAnalysis) :
    AttachmentAnalysis.of_dict (some a.asdict) = a := by
  have hmap : ∀ l : List AttachmentFileInfo,
      List.map (AttachmentFileInfo.of_dict ∘ AttachmentFileInfo.asdict) l = l := by
    intro l
    induction l with
    | nil => rfl
    | cons f t ih => simp [Function.comp, attachmentFileInfo_of_asdict, ih]
  cases a
  simp [AttachmentAnalysis.of_dict, AttachmentAnalysis.asdict, jLookup, List.find?, jDecIntD, jDecBoolD, jDecListStrD_encListStr,
    List.map_map, hmap]

theorem securityAnalysis_of_asdict (s : SecurityAnalysis) :
    SecurityAnalysis.of_dict (some s.asdict) = s := by
  cases s
  simp [SecurityAnalysis.of_dict, SecurityAnalysis.asdict, jLookup, List.find?, jDecStrD, jDecListStrD_encListStr]

theorem legacyAttachStep_has_executables (st : LegacyAttachmentAnalysis)
    (a : LegacyAttachment) :
    (legacyAttachStep st a).has_executables
      = (st.has_executables
          || legacyExecutableExts.contains (lowerStr (get_extension a.filename))) := by
  unfold legacyAttachStep
  dsimp only
  split
  · simp_all
  · split <;> simp_all

theorem legacyAttachStep_has_scripts (st : LegacyAttachmentAnalysis)
    (a : LegacyAttachment) :
    (legacyAttachStep st a).has_scripts
      = (st.has_scripts
          || (!legacyExecutableExts.contains (lowerStr (get_extension a.filename))
              && legacyScriptExts.contains (lowerStr (get_extension a.filename)))) := by
  unfold legacyAttachStep
  dsimp only
  split
  · simp_all
  · split <;> simp_all

theorem legacy_foldl_has_executables (atts : List LegacyAttachment)
    (st : LegacyAttachmentAnalysis) :
    (atts.foldl legacyAttachStep st).has_executables
      = (st.has_executables
          || atts.any (fun a =>
              legacyExecutableExts.contains (lowerStr (get_extension a.filename)))) := by
  induction atts generalizing st with
  | nil => simp
  | cons a t ih =>
    simp [List.foldl_cons, ih, legacyAttachStep_has_executables, Bool.or_assoc]

theorem legacy_foldl_has_scripts (atts : List LegacyAttachment)
    (st : LegacyAttachmentAnalysis) :
    (atts.foldl legacyAttachStep st).has_scripts
      = (st.has_scripts
          || atts.any (fun a =>
              !legacyExecutableExts.contains (lowerStr (get_extension a.filename))
                && legacyScriptExts.contains (lowerStr (get_extension a.filename)))) := by
  induction atts generalizing st with
  | nil => simp
  | cons a t ih =>
    simp [List.foldl_cons, ih, legacyAttachStep_has_scripts, Bool.or_assoc]

/-- C4 counterexample: a lone `.js` attachment makes the legacy analyzer
report `has_executables = true` but `has_scripts = false` — the `elif`
never reaches the script list for an executable-classified extension,
refuting the claim that a `.js` attachment sets both flags. -/
theorem claim_C4_counterexample :
    (analyze_attachments [{ filename := "a.js" }]).has_executables = true ∧
    (analyze_attachments [{ filename := "a.js" }]).has_scripts = false := by
  decide

/-- C4 (amended): in the legacy analyzer, an attachment whose extension
is `.js` sets `has_executables` (the `.js` extension is in the
executable list) but not `has_scripts`; `has_scripts` is true exactly
when some attachment's extension is in the script list and not in the
executable list, because the `elif` gives the executable list
precedence. -/
theorem claim_C4_amended (atts : List LegacyAttachment) :
    ((∃ a ∈ atts, lowerStr (get_extension a.filename) = ".js") →
      (analyze_attachments atts).has_executables = true) ∧
    ((analyze_attachments atts).has_scripts = true ↔
      ∃ a ∈ atts,
        legacyScriptExts.contains (lowerStr (get_extension a.filename)) = true ∧
        legacyExecutableExts.contains (lowerStr (get_extension a.filename)) = false) := by
  constructor
  · rintro ⟨a, ha, hext⟩
    rw [analyze_attachments, legacy_foldl_has_executables]
    simp only [Bool.false_or, List.any_eq_true]
    exact ⟨a, ha, by rw [hext]; decide⟩
  · rw [analyze_attachments, legacy_foldl_has_scripts]
    simp [List.any_eq_true, and_comm]

/-- C4 witness: with a `.js` attachment and a `.py` attachment both
flags are raised, instantiating the amended claim concretely. -/
theorem claim_C4_witness :
    (analyze_attachments [{ filename := "x.js" }, { filename := "y.py" }]).has_executables
        = true ∧
    (analyze_attachments [{ filename := "x.js" }, { filename := "y.py" }]).has_scripts
        = true := by
  have h := claim_C4_amended
    [({ filename := "x.js" } : LegacyAttachment), { filename := "y.py" }]
  refine ⟨h.1 ⟨{ filename := "x.js" }, by decide, by decide⟩, h.2.mpr ?_⟩
  exact ⟨{ filename := "y.py" }, by decide, by decide, by decide⟩

/-- C6 counterexample: the numeric label `0.5` is positive (and the
claim therefore maps it to 1), but `_normalize_label` converts it with
`int(label)` first and returns 0. -/
theorem claim_C6_counterexample :
    normalize_label (.pyfloat (1/2)) = 0 ∧ ((1 : ℚ)/2 = 1 ∨ 0 < (1 : ℚ)/2) := by
  constructor
  · have h0 : pyTrunc ((1 : ℚ)/2) = 0 := by
      unfold pyTrunc
      rw [if_pos (by norm_num)]
      rw [Int.floor_eq_zero_iff]
      constructor <;> norm_num
    rw [one_div] at h0
    simp [normalize_label, h0]
  · norm_num

/-- C6 (amended): label normalization maps booleans directly; a numeric
label maps to 1 exactly when it is ≥ 1 (not merely positive) because of
the `int(...)` truncation; string labels via the two fixed sets with the
default-to-legitimate fallback; in particular "SPAM" maps to 1, "Ham"
to 0 and "unknown" to 0. -/
theorem claim_C6_amended :
    (∀ l : PyLabel, normalize_label l = claimedLabelAmended l) ∧
    normalize_label (.pystr "SPAM") = 1 ∧
    normalize_label (.pystr "Ham") = 0 ∧
    normalize_label (.pystr "unknown") = 0 := by
  refine ⟨?_, by decide, by decide, by decide⟩
  intro l
  cases l with
  | pybool b => cases b <;> rfl
  | pyint n =>
    have h : (n = 1 ∨ 0 < n) ↔ 1 ≤ n := by omega
    simp only [normalize_label, claimedLabelAmended, h]
  | pyfloat q =>
    have h : (pyTrunc q = 1 ∨ 0 < pyTrunc q) ↔ 1 ≤ q := by
      unfold pyTrunc
      by_cases hq : 0 ≤ q
      · simp only [hq, if_true]
        constructor
        · rintro (h1 | h1)
          · exact_mod_cast (Int.le_floor).mp h1.ge
          · exact_mod_cast (Int.le_floor).mp h1
        · intro h1
          right
          exact_mod_cast (Int.le_floor).mpr (by exact_mod_cast h1)
      · simp only [hq, if_false]
        have hlt : q < 0 := lt_of_not_ge hq
        have hceil : ⌈q⌉ ≤ 0 := Int.ceil_le.mpr (by exact_mod_cast hlt.le)
        constructor
        · rintro (h1 | h1) <;> omega
        · intro h1
          exact absurd (lt_of_lt_of_le hlt (le_trans one_pos.le h1)) (lt_irrefl q)
    simp only [normalize_label, claimedLabelAmended, h]
  | pystr s => rfl
  | pyother => rfl

/-- C10: when `cc`, `bcc` or `headers` is present but bound to `None`,
`EmailRequest.from_dict` does not raise and leaves the corresponding
field absent (`None`), because the documented empty default is
substituted by `.get(key, default)` only when the key is missing. -/
theorem claim_C10 (kvs : List (String × J)) (atts : List AttachmentRequest)
    (hatt : EmailRequest.parseAttachments (jLookup kvs "attachments") = .ok atts) :
    ∃ r : EmailRequest, EmailRequest.from_dict kvs = .ok r
      ∧ (jLookup kvs "cc" = some .null → r.cc = none)
      ∧ (jLookup kvs "bcc" = some .null → r.bcc = none)
      ∧ (jLookup kvs "headers" = some .null → r.headers = none)
      ∧ (jLookup kvs "cc" = none → r.cc = some [])
      ∧ (jLookup kvs "bcc" = none → r.bcc = some [])
      ∧ (jLookup kvs "headers" = none → r.headers = some []) := by
  refine ⟨{ subject := jDecOptStr (jLookup kvs "subject")
            body := jDecOptStr (jLookup kvs "body")
            from_ := jDecOptStr (jLookup kvs "from")
            to_ := jDecOptStr (jLookup kvs "to")
            cc := EmailRequest.getListOrDefault (jLookup kvs "cc")
            bcc := EmailRequest.getListOrDefault (jLookup kvs "bcc")
            reply_to := jDecOptStr (jLookup kvs "reply_to")
            date := jDecOptStr (jLookup kvs "date")
            attachments := some atts
            headers := EmailRequest.getMapOrDefault (jLookup kvs "headers") },
          ?_, ?_, ?_, ?_, ?_, ?_, ?_⟩
  · simp [EmailRequest.from_dict, hatt]
  all_goals intro h
  all_goals simp [EmailRequest.getListOrDefault, EmailRequest.getMapOrDefault, h]

/-- C10 witness: the concrete payload binding all three keys to `None`
parses successfully with all three fields absent. -/
theorem claim_C10_witness :
    ∃ r : EmailRequest,
      EmailRequest.from_dict [("cc", J.null), ("bcc", J.null), ("headers", J.null)] = .ok r
        ∧ r.cc = none ∧ r.bcc = none ∧ r.headers = none := by
  obtain ⟨r, h1, h2, h3, h4, _, _, _⟩ :=
    claim_C10 [("cc", J.null), ("bcc", J.null), ("headers", J.null)] [] (by rfl)
  exact ⟨r, h1, h2 (by rfl), h3 (by rfl), h4 (by rfl)⟩

theorem splitFirstChar_eq_none_iff (c : Char) (l : List Char) :
    splitFirstChar c l = none ↔ l.contains c = false := by
  induction l with
  | nil => simp [splitFirstChar]
  | cons x rest ih =>
    by_cases h : x = c
    · subst h
      simp [splitFirstChar, List.contains_cons]
    · have hcx : (c == x) = false := beq_eq_false_iff_ne.mpr (Ne.symm h)
      simp only [splitFirstChar, if_neg h, Option.map_eq_none', ih, List.contains_cons,
        hcx, Bool.false_or]

theorem splitFirstChar_eq_some (c : Char) (l b a : List Char)
    (h : splitFirstChar c l = some (b, a)) :
    l = b ++ c :: a ∧ b.contains c = false := by
  induction l generalizing b a with
  | nil => simp [splitFirstChar] at h
  | cons x rest ih =>
    by_cases hx : x = c
    · subst hx
      simp only [splitFirstChar, reduceIte, Option.some.injEq, Prod.mk.injEq] at h
      obtain ⟨hb, ha⟩ := h
      subst hb; subst ha
      simp
    · simp only [splitFirstChar, if_neg hx] at h
      cases hp : splitFirstChar c rest with
      | none => rw [hp] at h; simp at h
      | some q =>
        obtain ⟨b2, a2⟩ := q
        rw [hp] at h
        simp only [Option.map_some', Option.some.injEq, Prod.mk.injEq] at h
        obtain ⟨hb, ha⟩ := h
        subst ha
        obtain ⟨hrest, hbc⟩ := ih b2 a2 hp
        subst hrest
        have hcx : (c == x) = false := beq_eq_false_iff_ne.mpr (Ne.symm hx)
        constructor
        · rw [← hb]
          simp
        · rw [← hb, List.contains_cons, hcx, hbc]
          rfl

theorem splitOnChar_ne_nil (c : Char) (l : List Char) : splitOnChar c l ≠ [] := by
  induction l with
  | nil => simp [splitOnChar]
  | cons x rest ih =>
    by_cases h : x = c
    · simp [splitOnChar, h]
    · simp only [splitOnChar, h, if_false]
      cases hs : splitOnChar c rest with
      | nil => simp
      | cons hh tt => simp

theorem splitOnChar_headD (c : Char) (l : List Char) :
    (splitOnChar c l).headD [] = l.takeWhile (fun x => x ≠ c) := by
  induction l with
  | nil => rfl
  | cons x rest ih =>
    by_cases h : x = c
    · simp [splitOnChar, h, List.takeWhile_cons]
    · simp only [splitOnChar, h, if_false, List.takeWhile_cons]
      cases hs : splitOnChar c rest with
      | nil => exact absurd hs (splitOnChar_ne_nil c rest)
      | cons hh tt =>
        rw [hs] at ih
        simp only [List.headD_cons] at ih
        simp [h, ih]

theorem splitOnChar_append_cons (c : Char) (b a : List Char)
    (hb : b.contains c = false) :
    splitOnChar c (b ++ c :: a) = b :: splitOnChar c a := by
  induction b with
  | nil => simp [splitOnChar]
  | cons x b2 ih =>
    rw [List.contains_cons, Bool.or_eq_false_iff] at hb
    obtain ⟨h1, h2⟩ := hb
    have hxc : ¬ x = c := fun hh => by subst hh; simp at h1
    show splitOnChar c (x :: (b2 ++ c :: a)) = (x :: b2) :: splitOnChar c a
    rw [splitOnChar, if_neg hxc, ih h2]

theorem fromValid_eq_claimedAmended (addr : String) :
    fromValid addr = claimedFromValidAmended addr := by
  unfold fromValid claimedFromValidAmended
  by_cases he : addr = ""
  · subst he
    simp
  · rw [if_neg he]
    cases hs : splitFirstChar '@' addr.toList with
    | none =>
      have hc : addr.toList.contains '@' = false := (splitFirstChar_eq_none_iff _ _).mp hs
      simp [hs]
      intro hmem
      have htrue : List.elem '@' addr.data = true := List.elem_iff.mpr hmem
      exact absurd (htrue.symm.trans hc) (by decide)
    | some p =>
      obtain ⟨b, a⟩ := p
      obtain ⟨hl, hb⟩ := splitFirstChar_eq_some '@' addr.toList b a hs
      simp only [hs]
      congr 1
      rw [hl, splitOnChar_append_cons '@' b a hb]
      have hgd : (b :: splitOnChar '@' a).getD 1 [] = (splitOnChar '@' a).headD [] := by
        cases splitOnChar '@' a <;> rfl
      rw [hgd, splitOnChar_headD]

/-- C5 counterexample: for the parsed address `"a@b"@c.d` (a quoted
local part, which CPython's `email.utils.parseaddr` returns verbatim for
the from header `"a@b"@c.d`), the substring after the FIRST `@` is
`b"@c.d` and contains a dot, so the claim reports it valid; the code
tests `addr.split("@")[1]` — the segment `b"` — and reports it invalid. -/
theorem claim_C5_counterexample :
    claimedFromValid "\"a@b\"@c.d" = true ∧ fromValid "\"a@b\"@c.d" = false := by
  decide

/-- C5 (amended): after mailbox parsing the address is reported valid
iff it contains `@` and the segment between the first and second `@`
(the whole remainder when there is only one `@`) contains a `.`; the
local part and domain are the substrings before and after the first `@`;
`user@sub.example.com` is valid with local part `user` and domain
`sub.example.com`, and `not-an-email` is invalid with both absent. -/
theorem claim_C5_amended :
    (∀ (name addr : String) (email : EmailRequest),
      (build_sender name addr email).from_valid = claimedFromValidAmended addr ∧
      (build_sender name addr email).from_local_part
        = (splitFirstChar '@' addr.toList).map (fun p => String.mk p.1) ∧
      (build_sender name addr email).from_domain
        = (splitFirstChar '@' addr.toList).map (fun p => String.mk p.2)) ∧
    (build_sender "" "user@sub.example.com"
      { from_ := some "user@sub.example.com" }).from_valid = true ∧
    (build_sender "" "user@sub.example.com"
      { from_ := some "user@sub.example.com" }).from_local_part = some "user" ∧
    (build_sender "" "user@sub.example.com"
      { from_ := some "user@sub.example.com" }).from_domain = some "sub.example.com" ∧
    (build_sender "" "not-an-email" { from_ := some "not-an-email" }).from_valid = false ∧
    (build_sender "" "not-an-email" { from_ := some "not-an-email" }).from_local_part
        = none ∧
    (build_sender "" "not-an-email" { from_ := some "not-an-email" }).from_domain
        = none := by
  refine ⟨?_, by decide, by decide, by decide, by decide, by decide, by decide⟩
  intro name addr email
  unfold build_sender
  cases hs : splitFirstChar '@' addr.toList with
  | none => simp [hs, fromValid_eq_claimedAmended]
  | some p =>
    obtain ⟨b, a⟩ := p
    simp [hs, fromValid_eq_claimedAmended]

/-- C2: the overall score matches the spec's floor formula — each
`int(...)` truncation coincides with `floor` because every present score
is a sanitized non-negative value — with only the first malicious
attachment's confidence counted and the sum capped at 100; in
particular, body score 0.9 with 4 malicious URLs and all other present
signals zero yields exactly 42. -/
theorem claim_C2 (ctx : Context)
    (hbody : ∀ q ∈ ctx.email_body_phishing_score, 0 ≤ q)
    (hsender : ∀ q ∈ ctx.sender_phishing_score, 0 ≤ q)
    (hsubject : ∀ q ∈ ctx.subject_phishing_score, 0 ≤ q)
    (hfraud : ∀ q ∈ ctx.fraud_score, 0 ≤ q)
    (hconf : ∀ rs ∈ ctx.malware_detection_results, ∀ r ∈ rs, 0 ≤ r.confidence) :
    calculate_overall_score ctx = specOverallScore ctx ∧
    calculate_overall_score exampleScoreContext = 42 := by
  constructor
  · have h1 : (match ctx.email_body_phishing_score with
        | some q => pyTrunc (q * 30) | none => 0)
        = (match ctx.email_body_phishing_score with
        | some q => ⌊q * 30⌋ | none => (0 : ℤ)) := by
      cases hb : ctx.email_body_phishing_score with
      | none => rfl
      | some q =>
        exact pyTrunc_eq_floor _ (mul_nonneg (hbody q (by simp [hb])) (by norm_num))
    have h2 : (match ctx.sender_phishing_score with
        | some q => pyTrunc (q * 20) | none => 0)
        = (match ctx.sender_phishing_score with
        | some q => ⌊q * 20⌋ | none => (0 : ℤ)) := by
      cases hb : ctx.sender_phishing_score with
      | none => rfl
      | some q =>
        exact pyTrunc_eq_floor _ (mul_nonneg (hsender q (by simp [hb])) (by norm_num))
    have h3 : (match ctx.subject_phishing_score with
        | some q => pyTrunc (q * 15) | none => 0)
        = (match ctx.subject_phishing_score with
        | some q => ⌊q * 15⌋ | none => (0 : ℤ)) := by
      cases hb : ctx.subject_phishing_score with
      | none => rfl
      | some q =>
        exact pyTrunc_eq_floor _ (mul_nonneg (hsubject q (by simp [hb])) (by norm_num))
    have h4 : (match ctx.fraud_score with
        | some q => pyTrunc (q * 20) | none => 0)
        = (match ctx.fraud_score with
        | some q => ⌊q * 20⌋ | none => (0 : ℤ)) := by
      cases hb : ctx.fraud_score with
      | none => rfl
      | some q =>
        exact pyTrunc_eq_floor _ (mul_nonneg (hfraud q (by simp [hb])) (by norm_num))
    have h6 : (match ctx.malware_detection_results with
        | some results =>
          (match results.find? (fun r : MalwareDetectionResult => r.is_malicious) with
           | some r => pyTrunc (r.confidence * 20) | none => 0)
        | none => 0)
        = (match ctx.malware_detection_results with
        | some results =>
          (match results.find? (fun r : MalwareDetectionResult => r.is_malicious) with
           | some r => ⌊r.confidence * 20⌋ | none => 0)
        | none => (0 : ℤ)) := by
      cases hm : ctx.malware_detection_results with
      | none => rfl
      | some rs =>
        cases hf : rs.find? (fun r : MalwareDetectionResult => r.is_malicious) with
        | none => simp only [hf]
        | some r =>
          simp only [hf]
          exact pyTrunc_eq_floor _
            (mul_nonneg (hconf rs (by simp [hm]) r (List.mem_of_find?_eq_some hf))
              (by norm_num))
    simp only [calculate_overall_score, specOverallScore, h1, h2, h3, h4, h6]
  · have h27 : pyTrunc ((9 : ℚ)/10 * 30) = 27 := by
      have he : (9 : ℚ)/10 * 30 = 27 := by norm_num
      rw [he]
      unfold pyTrunc
      rw [if_pos (by norm_num)]
      exact_mod_cast Int.floor_intCast 27
    have hz : pyTrunc ((0 : ℚ) * 20) = 0 := by
      norm_num [pyTrunc]
    have hz2 : pyTrunc ((0 : ℚ) * 15) = 0 := by
      norm_num [pyTrunc]
    simp only [calculate_overall_score, exampleScoreContext, h27, hz, hz2]
    norm_num

/-- C2 witness: the hypotheses of `claim_C2` hold at the worked example
context, where the score evaluates to exactly 42. -/
theorem claim_C2_witness :
    calculate_overall_score exampleScoreContext = specOverallScore exampleScoreContext ∧
    calculate_overall_score exampleScoreContext = 42 :=
  claim_C2 exampleScoreContext
    (by intro q hq; simp [exampleScoreContext] at hq; subst hq; norm_num)
    (by intro q hq; simp [exampleScoreContext] at hq; subst hq; exact le_refl 0)
    (by intro q hq; simp [exampleScoreContext] at hq; subst hq; exact le_refl 0)
    (by intro q hq; simp [exampleScoreContext] at hq; subst hq; exact le_refl 0)
    (by intro rs hrs r hr; simp [exampleScoreContext] at hrs; subst hrs; simp at hr)

/-- C3 counterexample: a top result with label `malicious` and score 0.3
makes the body detector store the verdict `true`, although the lowercased
label does not contain `phishing` and the sanitized score does not
exceed 0.5 — so the claimed two-signal iff is false: the code also
triggers on the substring `malicious`. -/
theorem claim_C3_counterexample :
    (emailValidate (fun _ => .ok [{ label := "malicious", score := .val (3/10) }]) 512
        (Context.init { body := some "hello" })).email_body_is_phishing = some true ∧
    strIn "phishing" (lowerStr "malicious") = false ∧
    ¬ sanitizeScore (.val (3/10)) > 1/2 := by
  refine ⟨?_, by decide, ?_⟩
  · rfl
  · have h : sanitizeScore (.val (3/10)) = 3/10 := by
      simp only [sanitizeScore]
      rw [min_eq_right (by norm_num), max_eq_right (by norm_num)]
    rw [h]
    norm_num

/-- C3 (amended): for the phishing body, sender and subject detectors,
whenever the classifier returns a non-empty result list, the stored
verdict is true iff the lowercased label contains `phishing` OR contains
`malicious` OR the sanitized score exceeds 0.5. -/
theorem claim_C3_amended (classify : String → ClassifierResult) (max_length : ℕ)
    (ctx : Context) (first : LabelScore) (rest : List LabelScore) :
    (optStrFalsy ctx.email_request.body = false →
      classify (truncate_text (ctx.email_request.body.getD "") max_length)
        = .ok (first :: rest) →
      (emailValidate classify max_length ctx).email_body_is_phishing
        = some (strIn "phishing" (lowerStr first.label)
            || strIn "malicious" (lowerStr first.label)
            || decide (sanitizeScore first.score > 1/2))) ∧
    (optStrFalsy ctx.email_request.from_ = false →
      classify (truncate_text (ctx.email_request.from_.getD "") max_length)
        = .ok (first :: rest) →
      (senderValidate classify max_length ctx).sender_is_phishing
        = some (strIn "phishing" (lowerStr first.label)
            || strIn "malicious" (lowerStr first.label)
            || decide (sanitizeScore first.score > 1/2))) ∧
    (optStrFalsy ctx.email_request.subject = false →
      classify (truncate_text (ctx.email_request.subject.getD "") max_length)
        = .ok (first :: rest) →
      (subjectValidate classify max_length ctx).subject_is_phishing
        = some (strIn "phishing" (lowerStr first.label)
            || strIn "malicious" (lowerStr first.label)
            || decide (sanitizeScore first.score > 1/2))) := by
  refine ⟨fun hb hc => ?_, fun hb hc => ?_, fun hb hc => ?_⟩
  · unfold emailValidate
    rw [if_neg (by simp [hb])]
    dsimp only
    rw [hc]
  · unfold senderValidate
    rw [if_neg (by simp [hb])]
    dsimp only
    rw [hc]
  · unfold subjectValidate
    rw [if_neg (by simp [hb])]
    dsimp only
    rw [hc]

/-- C3 witness: for a body whose classifier answers with label
`PHISHING` at score 0.99, the amended rule applied concretely yields the
verdict `true`. -/
theorem claim_C3_witness :
    (emailValidate (fun _ => .ok [{ label := "PHISHING", score := .val (99/100) }]) 512
        (Context.init { body := some "win a prize" })).email_body_is_phishing
      = some (strIn "phishing" (lowerStr "PHISHING")
          || strIn "malicious" (lowerStr "PHISHING")
          || decide (sanitizeScore (.val (99/100)) > 1/2)) :=
  (claim_C3_amended (fun _ => .ok [{ label := "PHISHING", score := .val (99/100) }]) 512
    (Context.init { body := some "win a prize" })
    { label := "PHISHING", score := .val (99/100) } []).1 (by decide) rfl

/-- C7 counterexample: for the space-free input `abcd` with a one-token
budget (3 characters), the first 3 characters `abc` contain no space, so
`rsplit(' ', 1)[0]` returns them unchanged and the classifier input ends
mid-word (the next original character is `d`, not a space), refuting
"backed off to the nearest preceding space" and "never ends in the
middle of a word". -/
theorem claim_C7_counterexample :
    1 * 3 < "abcd".length ∧
    truncate_text "abcd" 1 = "abc" ∧
    ("abcd".toList.take (1 * 3)).contains ' ' = false ∧
    "abcd".toList[(truncate_text "abcd" 1).length]? = some 'd' := by
  decide

/-- C7 (amended): when the input exceeds the `max_tokens * 3` budget and
the first `max_tokens * 3` characters contain a space, the classifier
input is that prefix backed off to the last space — the character of the
original text just past the truncated text is a space, so the cut is at
a word boundary; but when the prefix contains no space, the raw prefix
is used as-is and may end mid-word. -/
theorem claim_C7_amended (text : String) (max_tokens : ℕ)
    (h : max_tokens * 3 < text.length) :
    ((text.toList.take (max_tokens * 3)).contains ' ' = true →
      truncate_text text max_tokens
          = String.mk (rsplitSpaceHead (text.toList.take (max_tokens * 3))) ∧
      text.toList[(truncate_text text max_tokens).length]? = some ' ') ∧
    ((text.toList.take (max_tokens * 3)).contains ' ' = false →
      truncate_text text max_tokens = String.mk (text.toList.take (max_tokens * 3))) := by
  have htr : truncate_text text max_tokens
      = String.mk (rsplitSpaceHead (text.toList.take (max_tokens * 3))) := by
    unfold truncate_text
    rw [if_neg (by omega)]
  have hplen : (text.toList.take (max_tokens * 3)).length = max_tokens * 3 := by
    rw [List.length_take]
    have hl : text.toList.length = text.length := rfl
    omega
  constructor
  · intro hsp
    refine ⟨htr, ?_⟩
    cases hs : splitFirstChar ' ' (text.toList.take (max_tokens * 3)).reverse with
    | none =>
      exfalso
      have hno : ((text.toList.take (max_tokens * 3)).reverse).contains ' ' = false :=
        (splitFirstChar_eq_none_iff _ _).mp hs
      have hmem : ' ' ∈ text.toList.take (max_tokens * 3) := List.elem_iff.mp hsp
      have hmem2 : ' ' ∈ (text.toList.take (max_tokens * 3)).reverse :=
        List.mem_reverse.mpr hmem
      exact absurd ((List.elem_iff.mpr hmem2).symm.trans hno) (by decide)
    | some q =>
      obtain ⟨b, a⟩ := q
      obtain ⟨hl, hbc⟩ := splitFirstChar_eq_some ' ' _ b a hs
      have hr : rsplitSpaceHead (text.toList.take (max_tokens * 3)) = a.reverse := by
        unfold rsplitSpaceHead
        rw [hs]
      have hp2 : text.toList.take (max_tokens * 3) = a.reverse ++ ' ' :: b.reverse := by
        have h2 := congrArg List.reverse hl
        simpa [List.reverse_append] using h2
      rw [htr, hr]
      have hlen : (String.mk a.reverse).length = a.reverse.length := rfl
      rw [hlen]
      have hlt : a.reverse.length < max_tokens * 3 := by
        have h2 := congrArg List.length hp2
        rw [hplen] at h2
        simp only [List.length_append, List.length_cons, List.length_reverse] at h2
        simp only [List.length_reverse]
        omega
      have hget : (text.toList.take (max_tokens * 3))[a.reverse.length]? = some ' ' := by
        rw [hp2, List.getElem?_append_right (le_refl _)]
        simp
      rw [← List.getElem?_take_of_lt hlt]
      exact hget
  · intro hns
    rw [htr]
    have hno : ((text.toList.take (max_tokens * 3)).reverse).contains ' ' = false := by
      cases hcr : ((text.toList.take (max_tokens * 3)).reverse).contains ' ' with
      | false => rfl
      | true =>
        exfalso
        have hmem : ' ' ∈ (text.toList.take (max_tokens * 3)).reverse :=
          List.elem_iff.mp hcr
        have hmem2 : ' ' ∈ text.toList.take (max_tokens * 3) := List.mem_reverse.mp hmem
        exact absurd ((List.elem_iff.mpr hmem2).symm.trans hns) (by decide)
    have hsnone : splitFirstChar ' ' (text.toList.take (max_tokens * 3)).reverse = none :=
      (splitFirstChar_eq_none_iff _ _).mpr hno
    unfold rsplitSpaceHead
    rw [hsnone]

/-- C7 witness: for `hello world foo` with a 4-token (12-character)
budget, the prefix `hello world ` contains a space, the classifier input
is `hello world`, and the original character right after it is a space. -/
theorem claim_C7_witness :
    truncate_text "hello world foo" 4
        = String.mk (rsplitSpaceHead ("hello world foo".toList.take (4 * 3))) ∧
    "hello world foo".toList[(truncate_text "hello world foo" 4).length]? = some ' ' :=
  (claim_C7_amended "hello world foo" 4 (by decide)).1 (by decide)

theorem urlLoop_spec (classify : String → ClassifierResult) (max_length : ℕ)
    (urls : List String) (acc : List UrlDetectionResult × ℤ) :
    urlLoop classify max_length urls acc
      = (acc.1 ++ urls.filterMap (urlStep classify max_length),
         acc.2 + ((urls.filterMap (urlStep classify max_length)).countP
           (fun r => r.is_malicious) : ℤ)) := by
  induction urls generalizing acc with
  | nil => simp [urlLoop]
  | cons url rest ih =>
    unfold urlLoop
    cases hu : urlStep classify max_length url with
    | none =>
      rw [ih]
      simp [List.filterMap_cons, hu]
    | some r =>
      dsimp only
      cases hmal : r.is_malicious with
      | false =>
        rw [if_neg (by simp [hmal]), ih]
        simp [List.filterMap_cons, hu, List.countP_cons, hmal]
      | true =>
        rw [if_pos (by simp [hmal]), ih]
        simp [List.filterMap_cons, hu, List.countP_cons, hmal]
        ring

/-- C8: with a non-empty body, the malicious-URL detector records one
entry per extracted URL occurrence in order — a per-URL classifier
failure yields an error entry with a false verdict and score 0 and does
not abort the remaining URLs — and the malicious counter equals the
number of recorded results whose verdict is true. -/
theorem claim_C8 (classify : String → ClassifierResult) (max_length : ℕ) (ctx : Context)
    (hbody : optStrFalsy ctx.email_request.body = false) :
    (urlDetectorValidate classify max_length ctx).url_detection_results
        = some ((extractUrls (ctx.email_request.body.getD "")).filterMap
            (urlStep classify max_length)) ∧
    (urlDetectorValidate classify max_length ctx).malicious_url_count
        = some (((extractUrls (ctx.email_request.body.getD "")).filterMap
            (urlStep classify max_length)).countP (fun r => r.is_malicious) : ℤ) := by
  unfold urlDetectorValidate
  rw [if_neg (by simp [hbody])]
  dsimp only
  rw [urlLoop_spec]
  simp

/-- C8 witness: a body with two URLs, the first failing classification
and the second classified malicious, instantiates the per-URL record and
counter properties concretely. -/
theorem claim_C8_witness :
    (urlDetectorValidate
        (fun s => if s = "http://a.com" then .err "boom"
          else .ok [{ label := "MALICIOUS", score := .val (9/10) }]) 512
        (Context.init
          { body := some "go http://a.com and http://bad.io now" })).url_detection_results
      = some ((extractUrls "go http://a.com and http://bad.io now").filterMap
          (urlStep (fun s => if s = "http://a.com" then .err "boom"
            else .ok [{ label := "MALICIOUS", score := .val (9/10) }]) 512)) ∧
    (urlDetectorValidate
        (fun s => if s = "http://a.com" then .err "boom"
          else .ok [{ label := "MALICIOUS", score := .val (9/10) }]) 512
        (Context.init
          { body := some "go http://a.com and http://bad.io now" })).malicious_url_count
      = some (((extractUrls "go http://a.com and http://bad.io now").filterMap
          (urlStep (fun s => if s = "http://a.com" then .err "boom"
            else .ok [{ label := "MALICIOUS", score := .val (9/10) }]) 512)).countP
            (fun r => r.is_malicious) : ℤ) :=
  claim_C8 _ 512 (Context.init { body := some "go http://a.com and http://bad.io now" })
    (by decide)

/-- C9 counterexample: a response record constructed WITH its error set
— to the empty string — serializes without the `error` key (`to_dict`
tests Python truthiness, not presence), so parsing the dictionary back
yields an absent error: the round trip does not reproduce every field
for that record, only the claimed no-error records are exempt. -/
theorem claim_C9_counterexample :
    EmailAnalysisResponse.from_dict (EmailAnalysisResponse.to_dict sampleResponseEmptyError)
        = { sampleResponseEmptyError with error := none } ∧
    sampleResponseEmptyError.error = some "" := by
  constructor
  · decide
  · rfl

/-- C9 (amended): serializing an `EmailAnalysisResponse` with `to_dict`
and parsing back with `from_dict` reproduces every field exactly for
every record whose error is not the empty string; a record with no error
set — or with an empty-string error — serializes to a dictionary without
the `error` key and parses back to an absent error. -/
theorem claim_C9_amended (r : EmailAnalysisResponse) (h : r.error ≠ some "") :
    EmailAnalysisResponse.from_dict (EmailAnalysisResponse.to_dict r) = r ∧
    (r.error = none →
      jHasKey (EmailAnalysisResponse.to_dict r) "error" = false) := by
  obtain ⟨ts, md, ca, sa, ra, aa, se, os, er⟩ := r
  constructor
  · unfold EmailAnalysisResponse.to_dict EmailAnalysisResponse.from_dict
    cases er with
    | none =>
      simp [EmailAnalysisResponse.errorEntry, jLookup, List.find?, jDecStrD, jDecIntD,
        jDecOptStr, metadataAnalysis_of_asdict, contentAnalysis_of_asdict,
        senderAnalysis_of_to_dict, recipientAnalysis_of_asdict,
        attachmentAnalysis_of_asdict, securityAnalysis_of_asdict]
    | some msg =>
      have hm : ¬ msg = "" := by simpa using h
      simp [EmailAnalysisResponse.errorEntry, hm, jLookup, List.find?, jDecStrD, jDecIntD,
        jDecOptStr, metadataAnalysis_of_asdict, contentAnalysis_of_asdict,
        senderAnalysis_of_to_dict, recipientAnalysis_of_asdict,
        attachmentAnalysis_of_asdict, securityAnalysis_of_asdict]
  · intro he
    simp only at he
    subst he
    simp [EmailAnalysisResponse.to_dict, EmailAnalysisResponse.errorEntry, jHasKey,
      jLookup, List.find?]

/-- C9 witness: the round trip reproduces the sample record with no
error set, and its serialized dictionary has no `error` key. -/
theorem claim_C9_witness :
    EmailAnalysisResponse.from_dict (EmailAnalysisResponse.to_dict sampleResponseNoError)
        = sampleResponseNoError ∧
    (sampleResponseNoError.error = none →
      jHasKey (EmailAnalysisResponse.to_dict sampleResponseNoError) "error" = false) :=
  claim_C9_amended sampleResponseNoError
    (by simp [sampleResponseNoError, sampleResponseEmptyError])

theorem emailValidate_fraud_fields (classify : String → ClassifierResult)
    (max_length : ℕ) (ctx : Context) :
    (emailValidate classify max_length ctx).fraud_score = ctx.fraud_score ∧
    (emailValidate classify max_length ctx).is_fraud = ctx.is_fraud := by
  unfold emailValidate
  dsimp only
  split
  · exact ⟨rfl, rfl⟩
  · split <;> exact ⟨rfl, rfl⟩

theorem senderValidate_fraud_fields (classify : String → ClassifierResult)
    (max_length : ℕ) (ctx : Context) :
    (senderValidate classify max_length ctx).fraud_score = ctx.fraud_score ∧
    (senderValidate classify max_length ctx).is_fraud = ctx.is_fraud := by
  unfold senderValidate
  dsimp only
  split
  · exact ⟨rfl, rfl⟩
  · split <;> exact ⟨rfl, rfl⟩

theorem subjectValidate_fraud_fields (classify : String → ClassifierResult)
    (max_length : ℕ) (ctx : Context) :
    (subjectValidate classify max_length ctx).fraud_score = ctx.fraud_score ∧
    (subjectValidate classify max_length ctx).is_fraud = ctx.is_fraud := by
  unfold subjectValidate
  dsimp only
  split
  · exact ⟨rfl, rfl⟩
  · split <;> exact ⟨rfl, rfl⟩

theorem urlDetectorValidate_fraud_fields (classify : String → ClassifierResult)
    (max_length : ℕ) (ctx : Context) :
    (urlDetectorValidate classify max_length ctx).fraud_score = ctx.fraud_score ∧
    (urlDetectorValidate classify max_length ctx).is_fraud = ctx.is_fraud := by
  unfold urlDetectorValidate
  dsimp only
  split <;> exact ⟨rfl, rfl⟩

theorem malconvValidate_fraud_fields (classifyBytes : String → ClassifierResult)
    (ctx : Context) :
    (malconvValidate classifyBytes ctx).fraud_score = ctx.fraud_score ∧
    (malconvValidate classifyBytes ctx).is_fraud = ctx.is_fraud :=
  ⟨rfl, rfl⟩

/-- C1 counterexample: running the production pipeline (the `flow` list
of `backend/app.py`) on a concrete request leaves `fraud_score` unset —
`FraudDetection` is not among the wired validators — refuting the claim
that the fraud detector executes and sets `context.fraud_score` before
the Response Builder runs. -/
theorem claim_C1_counterexample :
    (runFlow (flow failingModels)
        (Context.init { body := some "urgent wire transfer" })).fraud_score = none ∧
    (runFlow (flow failingModels)
        (Context.init { body := some "urgent wire transfer" })).is_fraud = none := by
  constructor <;> rfl

/-- C1 (amended): the production pipeline wires exactly five validators
— phishing body, phishing sender, phishing subject, malicious URL and
malware attachment; the fraud detector is absent — so for every request
and all classifier behaviors, `context.fraud_score` and
`context.is_fraud` are still unset (absent) when the Response Builder
runs, and its fraud term contributes 0. -/
theorem claim_C1_amended (m : FlowModels) (req : EmailRequest) :
    (runFlow (flow m) (Context.init req)).fraud_score = none ∧
    (runFlow (flow m) (Context.init req)).is_fraud = none := by
  have h0 : (Context.init req).fraud_score = none ∧
      (Context.init req).is_fraud = none := ⟨rfl, rfl⟩
  unfold runFlow flow
  simp only [List.foldl_cons, List.foldl_nil]
  have h1 := emailValidate_fraud_fields m.bodyClassifier m.bodyMaxLength (Context.init req)
  have h2 := senderValidate_fraud_fields m.senderClassifier m.senderMaxLength
    (emailValidate m.bodyClassifier m.bodyMaxLength (Context.init req))
  have h3 := subjectValidate_fraud_fields m.subjectClassifier m.subjectMaxLength
    (senderValidate m.senderClassifier m.senderMaxLength
      (emailValidate m.bodyClassifier m.bodyMaxLength (Context.init req)))
  have h4 := urlDetectorValidate_fraud_fields m.urlClassifier m.urlMaxLength
    (subjectValidate m.subjectClassifier m.subjectMaxLength
      (senderValidate m.senderClassifier m.senderMaxLength
        (emailValidate m.bodyClassifier m.bodyMaxLength (Context.init req))))
  have h5 := malconvValidate_fraud_fields m.malwareClassifier
    (urlDetectorValidate m.urlClassifier m.urlMaxLength
      (subjectValidate m.subjectClassifier m.subjectMaxLength
        (senderValidate m.senderClassifier m.senderMaxLength
          (emailValidate m.bodyClassifier m.bodyMaxLength (Context.init req)))))
  exact ⟨h5.1.trans (h4.1.trans (h3.1.trans (h2.1.trans (h1.1.trans h0.1)))),
         h5.2.trans (h4.2.trans (h3.2.trans (h2.2.trans (h1.2.trans h0.2))))⟩
